import Mathlib

/-!
Shallow embedding of the request-admission-control and alerting subsystem
(`security.go`, `alerts.go`) of the go-app repository, together with proofs
of the specification claims about it.

Go strings are modelled as `List Char`, Go maps as association lists with
unique keys (`minsert` replaces in place), and wall-clock time as a `Nat`
measured in seconds.  Background goroutines are modelled by one-sweep
functions; the middleware is modelled as a state-transition function on the
process state.
-/

namespace GoApp

/-- Go strings, modelled as lists of characters. -/
abbrev GoStr := List Char

/-! ### Go string helpers (from the `strings` package) -/

/-- `strings.HasPrefix s pre`. -/
def goStartsWith : GoStr → GoStr → Bool
  | _, [] => true
  | [], _ :: _ => false
  | c :: s, d :: t => decide (c = d) && goStartsWith s t

/-- `strings.Contains s sub`: `sub` occurs as a contiguous substring of `s`. -/
def goContains : GoStr → GoStr → Bool
  | [], sub => sub.isEmpty
  | c :: rest, sub => goStartsWith (c :: rest) sub || goContains rest sub

/-- `strings.Split s sep` for a one-character separator. -/
def goSplit (sep : Char) : GoStr → List GoStr
  | [] => [[]]
  | c :: rest =>
    if c = sep then [] :: goSplit sep rest
    else
      match goSplit sep rest with
      | [] => [[c]]
      | p :: ps => (c :: p) :: ps

/-- The whitespace set trimmed by `strings.TrimSpace`: Go's `unicode.IsSpace`,
i.e. the Unicode White_Space property — TAB..CR, SPACE, NEL, NBSP, Ogham space
mark, the U+2000..U+200A spaces, line and paragraph separators, narrow
no-break space, medium mathematical space and ideographic space. -/
def isGoSpace (c : Char) : Bool :=
  decide (c = '\t') || decide (c = '\n') || decide (c = '\x0b') ||
  decide (c = '\x0c') || decide (c = '\r') || decide (c = ' ') ||
  decide (c = '\x85') || decide (c = '\xa0') || decide (c = '\u1680') ||
  (decide ('\u2000' ≤ c) && decide (c ≤ '\u200a')) ||
  decide (c = '\u2028') || decide (c = '\u2029') || decide (c = '\u202f') ||
  decide (c = '\u205f') || decide (c = '\u3000')

/-- `strings.TrimSpace`: strip leading and trailing whitespace. -/
def goTrimSpace (s : GoStr) : GoStr :=
  ((s.dropWhile isGoSpace).reverse.dropWhile isGoSpace).reverse

/-! ### Go maps as association lists -/

/-- Map lookup (`v, ok := m[k]`). -/
def mlookup {α : Type} : List (GoStr × α) → GoStr → Option α
  | [], _ => none
  | (k', v) :: rest, k => if k' = k then some v else mlookup rest k

/-- Map assignment (`m[k] = v`): replace in place or append. -/
def minsert {α : Type} : List (GoStr × α) → GoStr → α → List (GoStr × α)
  | [], k, v => [(k, v)]
  | (k', v') :: rest, k, v =>
    if k' = k then (k, v) :: rest else (k', v') :: minsert rest k v

/-! ### Constants from the source -/

/-- `requestLimit = 100` (security.go). -/
def requestLimit : Nat := 100

/-- `blockDuration = 1 * time.Hour` (security.go), in seconds. -/
def blockDuration : Nat := 3600

/-- `errorThreshold = 5` (alerts.go). -/
def errorThreshold : Nat := 5

/-- The 10-minute inactivity window of `cleanRequestCounts`, in seconds. -/
def inactivityWindow : Nat := 600

/-- `"127.0.0.1"`. -/
def loop4 : GoStr := "127.0.0.1".toList

/-- `"::1"`. -/
def loop6 : GoStr := "::1".toList

/-- `"[::1]"`. -/
def loop6b : GoStr := "[::1]".toList

/-- `trustedIPs` (security.go). -/
def trustedIPs : List GoStr :=
  [loop4, loop6, "10.0.0.1".toList]

/-- `suspiciousPaths` (security.go, `isSuspicious`). -/
def suspiciousPaths : List GoStr :=
  ["/admin".toList, "/wp-login.php".toList, "/.env".toList, "/backup".toList]

/-- Context label used by `alertMiddleware` when reporting a recovered panic. -/
def panicContext : GoStr := "PANIC in request handler".toList

/-- Message used for a panic payload that is neither a string nor an error. -/
def unknownPanicMsg : GoStr := "Unknown panic".toList

/-- The pseudo-path logged by `blockSuspiciousIP`. -/
def highErrorRate : GoStr := "high_error_rate".toList

/-! ### Process state -/

/-- The four global mutable maps of the subsystem. -/
structure AppState where
  requestCounts : List (GoStr × Nat)
  lastRequestTime : List (GoStr × Nat)
  blockedIPs : List (GoStr × Nat)
  errorCounts : List (GoStr × Nat)
deriving DecidableEq

/-- The state at process start: all four maps empty. -/
def emptyState : AppState := ⟨[], [], [], []⟩

/-! ### security.go -/

/-- `getIP`: first comma-token of `X-Forwarded-For` trimmed if the header is
non-empty, else `RemoteAddr` with everything from its last colon on removed. -/
def getIP (forwarded remoteAddr : GoStr) : GoStr :=
  if forwarded ≠ [] then
    goTrimSpace ((goSplit ',' forwarded).headD [])
  else if ':' ∈ remoteAddr then
    ((remoteAddr.reverse.dropWhile (fun c => decide (c ≠ ':'))).drop 1).reverse
  else remoteAddr

/-- `isTrusted`: linear scan of `trustedIPs`. -/
def isTrusted (ip : GoStr) : Bool :=
  trustedIPs.any (fun t => decide (t = ip))

/-- `incrementRequestCount`: set `lastRequestTime[ip]` (twice when absent, as
in the source), increment `requestCounts[ip]`, return the new count. -/
def incrementRequestCount (now : Nat) (st : AppState) (ip : GoStr) :
    AppState × Nat :=
  let lrt0 := if (mlookup st.lastRequestTime ip).isSome then st.lastRequestTime
              else minsert st.lastRequestTime ip now
  let lrt := minsert lrt0 ip now
  let newCount := (mlookup st.requestCounts ip).getD 0 + 1
  ({ st with requestCounts := minsert st.requestCounts ip newCount,
             lastRequestTime := lrt }, newCount)

/-- `isBlocked`: an entry exists and `now - blockedAt < blockDuration`. -/
def isBlocked (now : Nat) (st : AppState) (ip : GoStr) : Bool :=
  match mlookup st.blockedIPs ip with
  | none => false
  | some t => decide (now - t < blockDuration)

/-- `blockIP`: `blockedIPs[ip] = time.Now()`. -/
def blockIP (now : Nat) (st : AppState) (ip : GoStr) : AppState :=
  { st with blockedIPs := minsert st.blockedIPs ip now }

/-- `isSuspicious`: count far above limit, or path contains a bad substring. -/
def isSuspicious (st : AppState) (ip path : GoStr) : Bool :=
  (match mlookup st.requestCounts ip with
   | some c => decide (c > requestLimit * 2)
   | none => false)
  || suspiciousPaths.any (fun sp => goContains path sp)

/-- Security-log event types emitted via `logSecurityEvent`. -/
inductive EventType
  | blockedAccess
  | rateLimitExceeded
  | suspiciousActivity
  | suspiciousIPBlocked
deriving DecidableEq

/-- One `logSecurityEvent` record. -/
structure Event where
  eventType : EventType
  ip : GoStr
  path : GoStr
deriving DecidableEq

/-- The admission decision returned to the HTTP layer. -/
inductive Decision
  | allow
  | reject (status : Nat)
deriving DecidableEq

/-- Result of one pass through `securityMiddleware`. -/
structure StepResult where
  state : AppState
  decision : Decision
  events : List Event
deriving DecidableEq

/-- `securityMiddleware`, as a state transition for one request from `ip`
to `path` at time `now`. -/
def securityStep (now : Nat) (st : AppState) (ip path : GoStr) : StepResult :=
  if isTrusted ip then ⟨st, .allow, []⟩
  else if isBlocked now st ip then
    ⟨st, .reject 429, [⟨.blockedAccess, ip, path⟩]⟩
  else if (incrementRequestCount now st ip).2 > requestLimit then
    ⟨blockIP now (incrementRequestCount now st ip).1 ip, .reject 429,
      [⟨.rateLimitExceeded, ip, path⟩]⟩
  else if isSuspicious (incrementRequestCount now st ip).1 ip path then
    ⟨blockIP now (incrementRequestCount now st ip).1 ip, .reject 403,
      [⟨.suspiciousActivity, ip, path⟩]⟩
  else ⟨(incrementRequestCount now st ip).1, .allow, []⟩

/-- Whether the reaper deletes the counter entry of `ip`: a count entry exists
and its `lastRequestTime` is more than 10 minutes old. -/
def staleEntry (now : Nat) (st : AppState) (ip : GoStr) : Bool :=
  (mlookup st.requestCounts ip).isSome &&
  (match mlookup st.lastRequestTime ip with
   | some t => decide (now - t > inactivityWindow)
   | none => false)

/-- One sweep of `cleanRequestCounts`: evict stale counters and expired
block entries. -/
def cleanSweep (now : Nat) (st : AppState) : AppState :=
  { st with
    requestCounts := st.requestCounts.filter (fun kv => ! staleEntry now st kv.1),
    lastRequestTime :=
      st.lastRequestTime.filter (fun kv => ! staleEntry now st kv.1),
    blockedIPs :=
      st.blockedIPs.filter (fun kv => ! decide (now - kv.2 > blockDuration)) }

/-! ### alerts.go -/

/-- `normalizeIP`: collapse the IPv6 loopback forms, strip IPv6 brackets,
strip everything from the first colon. -/
def normalizeIP (ip : GoStr) : GoStr :=
  if ip = loop6 ∨ ip = loop6b then loop4
  else
    let ip1 := if ip.head? = some '[' ∧ ']' ∈ ip
               then (ip.drop 1).takeWhile (fun c => decide (c ≠ ']'))
               else ip
    if ':' ∈ ip1 then ip1.takeWhile (fun c => decide (c ≠ ':')) else ip1

/-- The Telegram configuration read from the environment. -/
structure AlertConfig where
  telegramBotToken : GoStr
  telegramChatID : GoStr
deriving DecidableEq

/-- One informational log line written by `logErrorWithAlert`. -/
structure LogLine where
  context : GoStr
  errorMsg : GoStr
  ip : GoStr
deriving DecidableEq

/-- One outbound Telegram alert dispatched by `sendTelegramAlert`. -/
structure TelegramAlert where
  context : GoStr
  ip : GoStr
  count : Nat
  time : Nat
deriving DecidableEq

/-- Observable result of one call into the error-escalation pipeline. -/
structure EscalationResult where
  state : AppState
  logLines : List LogLine
  alerts : List TelegramAlert
  events : List Event
deriving DecidableEq

/-- `blockSuspiciousIP`: write the block entry and emit
`SUSPICIOUS_IP_BLOCKED`. -/
def blockSuspiciousIP (now : Nat) (st : AppState) (ip : GoStr) :
    AppState × List Event :=
  ({ st with blockedIPs := minsert st.blockedIPs ip now },
   [⟨.suspiciousIPBlocked, ip, highErrorRate⟩])

/-- `logErrorWithAlert`: normalize, log, and — only when Telegram is
configured — tally the error and escalate at the threshold. -/
def logErrorWithAlert (cfg : AlertConfig) (now : Nat) (st : AppState)
    (errorMsg context ip : GoStr) : EscalationResult :=
  let nip := normalizeIP ip
  let line : LogLine := ⟨context, errorMsg, nip⟩
  if cfg.telegramBotToken = [] ∨ cfg.telegramChatID = [] then
    ⟨st, [line], [], []⟩
  else
    let newCount := (mlookup st.errorCounts nip).getD 0 + 1
    let st1 := { st with errorCounts := minsert st.errorCounts nip newCount }
    if newCount ≥ errorThreshold then
      let b := blockSuspiciousIP now st1 nip
      ⟨b.1, [line], [⟨context, nip, newCount, now⟩], b.2⟩
    else ⟨st1, [line], [], []⟩

/-- One sweep of `monitorErrors`: delete tally entries below the threshold. -/
def monitorSweep (st : AppState) : AppState :=
  { st with
    errorCounts :=
      st.errorCounts.filter (fun kv => ! decide (kv.2 < errorThreshold)) }

/-- A recovered panic payload, as classified by `alertMiddleware`. -/
inductive PanicPayload
  | str (s : GoStr)
  | err (msg : GoStr)
  | other
deriving DecidableEq

/-- The `switch e := err.(type)` classification in `alertMiddleware`. -/
def classifyPanic : PanicPayload → GoStr
  | .str s => s
  | .err m => m
  | .other => unknownPanicMsg

/-- Observable result of one request through `alertMiddleware`. -/
structure WrapperResult where
  state : AppState
  status : Nat
  logLines : List LogLine
  alerts : List TelegramAlert
  events : List Event
deriving DecidableEq

/-- `alertMiddleware`: run the handler; on a panic, classify the payload,
report it to the escalation pipeline, and answer 500. -/
def alertMiddleware (cfg : AlertConfig) (now : Nat) (st : AppState)
    (ip : GoStr) (handlerOutcome : Except PanicPayload Nat) : WrapperResult :=
  match handlerOutcome with
  | .ok status => ⟨st, status, [], [], []⟩
  | .error p =>
    let r := logErrorWithAlert cfg now st (classifyPanic p) panicContext ip
    ⟨r.state, 500, r.logLines, r.alerts, r.events⟩

/-! ### Concrete inputs used by witnesses and counterexamples -/

/-- A plain IPv4 identity. -/
def ipA : GoStr := "4.4.4.4".toList

/-- A plain IPv4 identity, already in normal form. -/
def ipB : GoStr := "9.9.9.9".toList

/-- An ordinary request path. -/
def pathX : GoStr := "/x".toList

/-- A path containing the suspicious substring `/admin`. -/
def pathAdmin : GoStr := "/admin".toList

/-- A sample error message. -/
def msgStr : GoStr := "boom".toList

/-- A sample context label. -/
def ctxStr : GoStr := "ctx".toList

/-- A non-empty bot token. -/
def tokStr : GoStr := "tok".toList

/-- A non-empty chat id. -/
def chatStr : GoStr := "chat".toList

/-- Telegram configured. -/
def cfgOn : AlertConfig := ⟨tokStr, chatStr⟩

/-- Telegram not configured. -/
def cfgOff : AlertConfig := ⟨[], []⟩

/-- A state in which `ipB` is blocked since time 0 and has four tallied
errors. -/
def c2State : AppState :=
  { emptyState with blockedIPs := [(ipB, 0)], errorCounts := [(ipB, 4)] }

/-- A state in which `ipA` is blocked since time 650 and has a counter entry
last seen at time 0. -/
def c10State : AppState :=
  { emptyState with requestCounts := [(ipA, 3)],
                    lastRequestTime := [(ipA, 0)],
                    blockedIPs := [(ipA, 650)] }

/-- Iterated handler faults reported with Telegram unconfigured. -/
def afterFaultsOff : Nat → AppState
  | 0 => emptyState
  | n + 1 =>
    (logErrorWithAlert cfgOff 0 (afterFaultsOff n) msgStr ctxStr ipB).state

/-- Iterated handler faults from the trusted loopback identity with Telegram
configured. -/
def afterFaultsOn : Nat → AppState
  | 0 => emptyState
  | n + 1 =>
    (logErrorWithAlert cfgOn 0 (afterFaultsOn n) msgStr ctxStr loop4).state

/-- A forwarding-header value with two comma-separated tokens. -/
def fwdStr : GoStr := " 1.2.3.4 , 5.6.7.8".toList

/-- A forwarding-header value consisting of a bare comma. -/
def commaStr : GoStr := ",".toList

/-- A peer address with nothing before the port separator. -/
def colonPort : GoStr := ":8080".toList

/-- A peer address in `host:port` form. -/
def remoteStr : GoStr := "1.2.3.4:80".toList

/-! ### Association-list map lemmas -/

lemma mlookup_minsert_self {α : Type} (m : List (GoStr × α)) (k : GoStr) (v : α) :
    mlookup (minsert m k v) k = some v := by
  induction m with
  | nil => simp [minsert, mlookup]
  | cons kv rest ih =>
    obtain ⟨k0, v0⟩ := kv
    by_cases h : k0 = k
    · simp [minsert, h, mlookup]
    · simp [minsert, h, mlookup, ih]

lemma mlookup_eq_none_of_not_mem_keys {α : Type} {m : List (GoStr × α)}
    {k : GoStr} (h : k ∉ m.map Prod.fst) : mlookup m k = none := by
  induction m with
  | nil => rfl
  | cons kv rest ih =>
    obtain ⟨k0, v0⟩ := kv
    simp only [List.map_cons, List.mem_cons] at h
    push_neg at h
    have hne : ¬ k0 = k := fun he => h.1 he.symm
    simp [mlookup, hne, ih h.2]

lemma keys_filter_subset {α : Type} (m : List (GoStr × α)) (q : GoStr × α → Bool) :
    ((m.filter q).map Prod.fst) ⊆ m.map Prod.fst := by
  intro x hx
  obtain ⟨kv, hkv, rfl⟩ := List.mem_map.mp hx
  exact List.mem_map.mpr ⟨kv, (List.mem_filter.mp hkv).1, rfl⟩

lemma mlookup_filter_key {α : Type} (m : List (GoStr × α)) (p : GoStr → Bool)
    (k : GoStr) :
    mlookup (m.filter (fun kv => p kv.1)) k
      = if p k then mlookup m k else none := by
  induction m with
  | nil => simp [mlookup]
  | cons kv rest ih =>
    obtain ⟨k0, v0⟩ := kv
    by_cases hk : k0 = k
    · subst hk
      by_cases hp : p k0 <;> simp [List.filter_cons, hp, mlookup, ih]
    · by_cases hp : p k0 <;> simp [List.filter_cons, hp, mlookup, hk, ih]

lemma mlookup_filter_val (m : List (GoStr × Nat)) (p : Nat → Bool) (k : GoStr)
    (hnd : (m.map Prod.fst).Nodup) :
    mlookup (m.filter (fun kv => p kv.2)) k = Option.filter p (mlookup m k) := by
  induction m with
  | nil => simp [mlookup, Option.filter]
  | cons kv rest ih =>
    obtain ⟨k0, v0⟩ := kv
    simp only [List.map_cons, List.nodup_cons] at hnd
    by_cases hk : k0 = k
    · subst hk
      by_cases hp : p v0
      · simp [List.filter_cons, hp, mlookup, Option.filter]
      · have hnone : mlookup (rest.filter (fun kv => p kv.2)) k0 = none :=
          mlookup_eq_none_of_not_mem_keys
            (fun hm => hnd.1 (keys_filter_subset rest _ hm))
        simp [List.filter_cons, hp, mlookup, hnone, Option.filter]
    · by_cases hp : p v0 <;>
        simp [List.filter_cons, hp, mlookup, hk, ih hnd.2]

/-! ### Projection lemmas for the store operations -/

lemma blockIP_requestCounts (now : Nat) (st : AppState) (ip : GoStr) :
    (blockIP now st ip).requestCounts = st.requestCounts := rfl

lemma inc_requestCounts (now : Nat) (st : AppState) (ip : GoStr) :
    (incrementRequestCount now st ip).1.requestCounts
      = minsert st.requestCounts ip ((mlookup st.requestCounts ip).getD 0 + 1) :=
  rfl

lemma inc_count (now : Nat) (st : AppState) (ip : GoStr) :
    (incrementRequestCount now st ip).2
      = (mlookup st.requestCounts ip).getD 0 + 1 := rfl

/-! ### takeWhile and trim lemmas -/

lemma mem_of_mem_takeWhile {p : Char → Bool} {l : GoStr} {x : Char}
    (h : x ∈ l.takeWhile p) : x ∈ l :=
  (List.takeWhile_sublist p).subset h

lemma not_mem_takeWhile_ne (a : Char) (l : GoStr) :
    a ∉ l.takeWhile (fun c => decide (c ≠ a)) := by
  intro h
  have := List.mem_takeWhile_imp h
  simp at this

lemma head?_takeWhile_of_ne_nil {p : Char → Bool} {l : GoStr}
    (h : l.takeWhile p ≠ []) : (l.takeWhile p).head? = l.head? := by
  cases l with
  | nil => simp at h
  | cons c t =>
    by_cases hp : p c
    · simp [List.takeWhile_cons, hp]
    · exfalso; apply h; simp [List.takeWhile_cons, hp]

lemma goSplit_ne_nil (sep : Char) (s : GoStr) : goSplit sep s ≠ [] := by
  cases s with
  | nil => simp [goSplit]
  | cons c t =>
    by_cases h : c = sep
    · simp [goSplit, h]
    · simp only [goSplit, if_neg h]
      cases goSplit sep t <;> simp

lemma goSplit_headD (sep : Char) (s : GoStr) :
    (goSplit sep s).headD [] = s.takeWhile (fun c => decide (c ≠ sep)) := by
  induction s with
  | nil => rfl
  | cons c t ih =>
    by_cases h : c = sep
    · simp [goSplit, h, List.takeWhile_cons]
    · simp only [goSplit, if_neg h]
      cases hs : goSplit sep t with
      | nil => exact absurd hs (goSplit_ne_nil sep t)
      | cons p ps =>
        rw [hs] at ih
        simp only [List.headD_cons] at ih ⊢
        rw [List.takeWhile_cons, if_pos (by simp [h]), ih]

lemma goTrimSpace_ne_nil (s : GoStr)
    (h : ∃ c ∈ s, isGoSpace c = false) : goTrimSpace s ≠ [] := by
  intro he
  unfold goTrimSpace at he
  rw [List.reverse_eq_nil_iff, List.dropWhile_eq_nil_iff] at he
  obtain ⟨c, hc, hns⟩ := h
  have hsplit := List.takeWhile_append_dropWhile (p := isGoSpace) (l := s)
  rw [← hsplit] at hc
  rcases List.mem_append.mp hc with h1 | h2
  · exact absurd (List.mem_takeWhile_imp h1) (by simp [hns])
  · exact absurd (he c (List.mem_reverse.mpr h2)) (by simp [hns])

lemma strip_colon_ne_nil (l : GoStr) (h2 : l.getLast? ≠ some ':')
    (h3 : ':' ∈ l) : (l.dropWhile (fun c => decide (c ≠ ':'))).drop 1 ≠ [] := by
  induction l with
  | nil => simp at h3
  | cons c t ih =>
    by_cases hc : c = ':'
    · subst hc
      rw [List.dropWhile_cons, if_neg (by simp)]
      simp only [List.drop_succ_cons, List.drop_zero]
      intro h0
      apply h2
      rw [h0]
      rfl
    · have ht : t ≠ [] := by
        intro h0
        subst h0
        simp only [List.mem_singleton] at h3
        exact hc h3.symm
      have h3' : ':' ∈ t := by
        rcases List.mem_cons.mp h3 with h | h
        · exact absurd h.symm hc
        · exact h
      have h2' : t.getLast? ≠ some ':' := by
        cases t with
        | nil => exact absurd rfl ht
        | cons d t' => rwa [List.getLast?_cons_cons] at h2
      rw [List.dropWhile_cons, if_pos (by simp [hc])]
      exact ih h2' h3'

/-! ### normalizeIP lemmas -/

lemma normalizeIP_of_fixed (r : GoStr) (h6 : r ≠ loop6) (h6b : r ≠ loop6b)
    (hbr : ¬ (r.head? = some '[' ∧ ']' ∈ r)) (hc : ':' ∉ r) :
    normalizeIP r = r := by
  unfold normalizeIP
  rw [if_neg (by tauto)]
  simp only [if_neg hbr]
  rw [if_neg hc]

lemma normalizeIP_idem (s : GoStr) :
    normalizeIP (normalizeIP s) = normalizeIP s := by
  by_cases hl : s = loop6 ∨ s = loop6b
  · have h : normalizeIP s = loop4 := by unfold normalizeIP; rw [if_pos hl]
    rw [h]; decide
  · by_cases hb : s.head? = some '[' ∧ ']' ∈ s
    · have hnb : ']' ∉ (s.drop 1).takeWhile (fun c => decide (c ≠ ']')) :=
        not_mem_takeWhile_ne ']' _
      by_cases hcol : ':' ∈ (s.drop 1).takeWhile (fun c => decide (c ≠ ']'))
      · have hres : normalizeIP s =
            ((s.drop 1).takeWhile (fun c => decide (c ≠ ']'))).takeWhile
              (fun c => decide (c ≠ ':')) := by
          unfold normalizeIP
          rw [if_neg hl]
          simp only [if_pos hb]
          rw [if_pos hcol]
        rw [hres]
        apply normalizeIP_of_fixed
        · intro he
          have : ':' ∈ ((s.drop 1).takeWhile (fun c => decide (c ≠ ']'))).takeWhile
              (fun c => decide (c ≠ ':')) := by rw [he]; decide
          exact not_mem_takeWhile_ne ':' _ this
        · intro he
          have : ']' ∈ ((s.drop 1).takeWhile (fun c => decide (c ≠ ']'))).takeWhile
              (fun c => decide (c ≠ ':')) := by rw [he]; decide
          exact hnb (mem_of_mem_takeWhile this)
        · rintro ⟨-, hm⟩
          exact hnb (mem_of_mem_takeWhile hm)
        · exact not_mem_takeWhile_ne ':' _
      · have hres : normalizeIP s =
            (s.drop 1).takeWhile (fun c => decide (c ≠ ']')) := by
          unfold normalizeIP
          rw [if_neg hl]
          simp only [if_pos hb]
          rw [if_neg hcol]
        rw [hres]
        apply normalizeIP_of_fixed
        · intro he
          exact hcol (by rw [he]; decide)
        · intro he
          exact hnb (by rw [he]; decide)
        · rintro ⟨-, hm⟩
          exact hnb hm
        · exact hcol
    · by_cases hcol : ':' ∈ s
      · have hres : normalizeIP s = s.takeWhile (fun c => decide (c ≠ ':')) := by
          unfold normalizeIP
          rw [if_neg hl]
          simp only [if_neg hb]
          rw [if_pos hcol]
        rw [hres]
        by_cases hr : s.takeWhile (fun c => decide (c ≠ ':')) = []
        · rw [hr]; decide
        · apply normalizeIP_of_fixed
          · intro he
            exact not_mem_takeWhile_ne ':' s (by rw [he]; decide)
          · intro he
            exact not_mem_takeWhile_ne ':' s (by rw [he]; decide)
          · rintro ⟨hh, hm⟩
            rw [head?_takeWhile_of_ne_nil hr] at hh
            exact (not_and.mp hb hh) (mem_of_mem_takeWhile hm)
          · exact not_mem_takeWhile_ne ':' s
      · have hres : normalizeIP s = s := by
          unfold normalizeIP
          rw [if_neg hl]
          simp only [if_neg hb]
          rw [if_neg hcol]
        rw [hres]
        exact normalizeIP_of_fixed s (fun h => hl (Or.inl h))
          (fun h => hl (Or.inr h)) hb hcol

/-! ### Escalation-pipeline lemmas -/

lemma logErrorWithAlert_configured (cfg : AlertConfig) (now : Nat)
    (st : AppState) (errorMsg context ip : GoStr)
    (hb : cfg.telegramBotToken ≠ []) (hc : cfg.telegramChatID ≠ []) :
    logErrorWithAlert cfg now st errorMsg context ip =
      if (mlookup st.errorCounts (normalizeIP ip)).getD 0 + 1 ≥ errorThreshold then
        ⟨{ st with
             errorCounts := minsert st.errorCounts (normalizeIP ip)
               ((mlookup st.errorCounts (normalizeIP ip)).getD 0 + 1),
             blockedIPs := minsert st.blockedIPs (normalizeIP ip) now },
         [⟨context, errorMsg, normalizeIP ip⟩],
         [⟨context, normalizeIP ip,
            (mlookup st.errorCounts (normalizeIP ip)).getD 0 + 1, now⟩],
         [⟨.suspiciousIPBlocked, normalizeIP ip, highErrorRate⟩]⟩
      else
        ⟨{ st with
             errorCounts := minsert st.errorCounts (normalizeIP ip)
               ((mlookup st.errorCounts (normalizeIP ip)).getD 0 + 1) },
         [⟨context, errorMsg, normalizeIP ip⟩], [], []⟩ := by
  have hcfg : ¬ (cfg.telegramBotToken = [] ∨ cfg.telegramChatID = []) := by
    rintro (h | h)
    · exact hb h
    · exact hc h
  simp only [logErrorWithAlert, blockSuspiciousIP]
  rw [if_neg hcfg]

lemma monitorSweep_lookup (st : AppState) (k : GoStr)
    (hnd : (st.errorCounts.map Prod.fst).Nodup) :
    mlookup (monitorSweep st).errorCounts k
      = Option.filter (fun v => ! decide (v < errorThreshold))
          (mlookup st.errorCounts k) := by
  have h := mlookup_filter_val st.errorCounts
    (fun v => ! decide (v < errorThreshold)) k hnd
  simpa [monitorSweep] using h

/-! ### Claim theorems -/

/-- C1: the admission controller evaluates its checks in this exact order and
returns the first matching outcome: a trusted identity is admitted with no
further check and no mutation; otherwise an unexpired block rejects with 429
and a `BLOCKED_ACCESS` event without touching the counter; otherwise the
counter is incremented and a count above `requestLimit` blocks, emits
`RATE_LIMIT_EXCEEDED` and rejects with 429; otherwise a suspicious
(identity, path) pair blocks, emits `SUSPICIOUS_ACTIVITY` and rejects with
403; otherwise the request is admitted. -/
theorem C1_admission_controller_order (now : Nat) (st : AppState)
    (ip path : GoStr) :
    (isTrusted ip = true → securityStep now st ip path = ⟨st, .allow, []⟩)
  ∧ (isTrusted ip = false → isBlocked now st ip = true →
      securityStep now st ip path =
        ⟨st, .reject 429, [⟨.blockedAccess, ip, path⟩]⟩)
  ∧ ((incrementRequestCount now st ip).2
      = (mlookup st.requestCounts ip).getD 0 + 1)
  ∧ (isTrusted ip = false → isBlocked now st ip = false →
      (incrementRequestCount now st ip).2 > requestLimit →
      securityStep now st ip path =
        ⟨blockIP now (incrementRequestCount now st ip).1 ip, .reject 429,
          [⟨.rateLimitExceeded, ip, path⟩]⟩)
  ∧ (isTrusted ip = false → isBlocked now st ip = false →
      (incrementRequestCount now st ip).2 ≤ requestLimit →
      isSuspicious (incrementRequestCount now st ip).1 ip path = true →
      securityStep now st ip path =
        ⟨blockIP now (incrementRequestCount now st ip).1 ip, .reject 403,
          [⟨.suspiciousActivity, ip, path⟩]⟩)
  ∧ (isTrusted ip = false → isBlocked now st ip = false →
      (incrementRequestCount now st ip).2 ≤ requestLimit →
      isSuspicious (incrementRequestCount now st ip).1 ip path = false →
      securityStep now st ip path =
        ⟨(incrementRequestCount now st ip).1, .allow, []⟩) := by
  refine ⟨fun h1 => ?_, fun h1 h2 => ?_, rfl, fun h1 h2 h3 => ?_,
    fun h1 h2 h3 h4 => ?_, fun h1 h2 h3 h4 => ?_⟩
  · simp [securityStep, h1]
  · simp [securityStep, h1, h2]
  · simp [securityStep, h1, h2, h3]
  · simp [securityStep, h1, h2, Nat.not_lt.mpr h3, h4]
  · simp [securityStep, h1, h2, Nat.not_lt.mpr h3, h4]

/-- C1 witness: the trusted-identity branch evaluated at the loopback
identity. -/
theorem C1_admission_controller_order_witness :
    isTrusted loop4 = true ∧
    securityStep 0 emptyState loop4 pathX = ⟨emptyState, .allow, []⟩ :=
  ⟨by decide, (C1_admission_controller_order 0 emptyState loop4 pathX).1
    (by decide)⟩

/-- C2 counterexample: `ipB` is blocked at time 0 and the block is unexpired
at time 7, yet a fifth tallied fault at time 7 re-runs the block operation
through the escalation trigger and re-anchors `blockedAt` to 7, contradicting
the claim that the window stays anchored to the original `blockedAt`. -/
theorem C2_blocking_idempotent_counterexample :
    mlookup c2State.blockedIPs ipB = some 0 ∧
    isBlocked 7 c2State ipB = true ∧
    mlookup (logErrorWithAlert cfgOn 7 c2State msgStr ctxStr ipB).state.blockedIPs
      ipB = some 7 := by decide

/-- C2 amended: the block operation always overwrites `blockedAt` with the
current time, re-anchoring the window to the latest trigger; inside the
admission controller an unexpired block is never re-anchored only because the
blocked check precedes any call to the block operation. -/
theorem C2_blocking_overwrites (now : Nat) (st : AppState) (ip path : GoStr) :
    mlookup (blockIP now st ip).blockedIPs ip = some now
  ∧ (isBlocked now st ip = true →
      (securityStep now st ip path).state.blockedIPs = st.blockedIPs) := by
  constructor
  · exact mlookup_minsert_self _ _ _
  · intro h
    by_cases ht : isTrusted ip = true
    · simp [securityStep, ht]
    · simp [securityStep, ht, h]

/-- C2 witness: the middleware leaves the blocklist untouched for a currently
blocked identity. -/
theorem C2_blocking_overwrites_witness :
    isBlocked 7 c2State ipB = true ∧
    (securityStep 7 c2State ipB pathX).state.blockedIPs = c2State.blockedIPs :=
  ⟨by decide, (C2_blocking_overwrites 7 c2State ipB pathX).2 (by decide)⟩

/-- C3 counterexample: with the Telegram configuration absent, five reported
faults from `ipB` leave both the error tally and the blocklist empty — the
early return disables blocking, not only dispatch — while the informational
log line is still written. -/
theorem C3_missing_config_counterexample :
    mlookup (afterFaultsOff 5).blockedIPs ipB = none ∧
    mlookup (afterFaultsOff 5).errorCounts ipB = none ∧
    (logErrorWithAlert cfgOff 0 emptyState msgStr ctxStr ipB).logLines
      = [⟨ctxStr, msgStr, ipB⟩] := by decide

/-- C3 amended: when the bot token or chat id is absent, a reported fault
still writes the informational log line, but the pipeline performs no
tallying, no dispatch and no blocking: the state is left unchanged. -/
theorem C3_missing_config_disables_blocking (cfg : AlertConfig) (now : Nat)
    (st : AppState) (errorMsg context ip : GoStr)
    (h : cfg.telegramBotToken = [] ∨ cfg.telegramChatID = []) :
    logErrorWithAlert cfg now st errorMsg context ip
      = ⟨st, [⟨context, errorMsg, normalizeIP ip⟩], [], []⟩ := by
  unfold logErrorWithAlert
  rw [if_pos h]

/-- C3 witness: the unconfigured pipeline evaluated at a concrete fault. -/
theorem C3_missing_config_disables_blocking_witness :
    logErrorWithAlert cfgOff 0 emptyState msgStr ctxStr ipB
      = ⟨emptyState, [⟨ctxStr, msgStr, normalizeIP ipB⟩], [], []⟩ :=
  C3_missing_config_disables_blocking cfgOff 0 emptyState msgStr ctxStr ipB
    (Or.inl rfl)

/-- C4 counterexample: the loopback identity is trusted, yet five handler
faults with Telegram configured put it into the blocklist — a trusted
identity can acquire a blocklist entry through the escalation pipeline,
contradicting the claim that no blocklist entry is ever produced. -/
theorem C4_trusted_counterexample :
    isTrusted loop4 = true ∧
    mlookup (afterFaultsOn 5).blockedIPs loop4 = some 0 := by decide

/-- C4 amended: requests from a trusted identity are always admitted, with no
event and no state change, in every state — including states in which the
escalation pipeline has put the identity on the blocklist, since the trust
check precedes the blocked check; but handler faults can still create a
blocklist entry for a trusted identity. -/
theorem C4_trusted_always_admitted (ip : GoStr) (h : isTrusted ip = true) :
    (∀ now st path, securityStep now st ip path = ⟨st, .allow, []⟩)
  ∧ mlookup (afterFaultsOn 5).blockedIPs loop4 = some 0 :=
  ⟨fun now st path => by simp [securityStep, h], by decide⟩

/-- C4 witness: a trusted identity is admitted even in a state where `ipB` is
blocked. -/
theorem C4_trusted_always_admitted_witness :
    securityStep 3 c2State loop4 pathX = ⟨c2State, .allow, []⟩ :=
  (C4_trusted_always_admitted loop4 (by decide)).1 3 c2State pathX

/-- C5: the execution wrapper is total on every handler outcome: a normal
outcome passes through untouched, and every fault is intercepted, classified
(string payload verbatim, error payload by its message, anything else the
generic unknown-fault message), forwarded to the escalation pipeline, and
answered with HTTP 500; since the wrapper is a total function of the handler
outcome, no fault — of the handler or of the pipeline, which is itself a
total function — propagates past it. -/
theorem C5_panic_wrapper (cfg : AlertConfig) (now : Nat) (st : AppState)
    (ip : GoStr) (p : PanicPayload) :
    (∀ status, alertMiddleware cfg now st ip (Except.ok status)
        = ⟨st, status, [], [], []⟩)
  ∧ (alertMiddleware cfg now st ip (Except.error p)).status = 500
  ∧ (∀ s, classifyPanic (PanicPayload.str s) = s)
  ∧ (∀ m, classifyPanic (PanicPayload.err m) = m)
  ∧ classifyPanic PanicPayload.other = unknownPanicMsg
  ∧ alertMiddleware cfg now st ip (Except.error p)
      = ⟨(logErrorWithAlert cfg now st (classifyPanic p) panicContext ip).state,
         500,
         (logErrorWithAlert cfg now st (classifyPanic p) panicContext ip).logLines,
         (logErrorWithAlert cfg now st (classifyPanic p) panicContext ip).alerts,
         (logErrorWithAlert cfg now st (classifyPanic p) panicContext ip).events⟩ :=
  ⟨fun _ => rfl, rfl, fun _ => rfl, fun _ => rfl, rfl, rfl⟩

/-- C6: with Telegram configured, each reported fault increments the tally of
the normalized identity; exactly when the new count reaches the threshold,
one alert with context, identity, count and time is dispatched and the
identity is blocked with a `SUSPICIOUS_IP_BLOCKED` event; the reaper sweep
deletes exactly the tally entries below the threshold; and a further fault
from an already-escalated identity re-triggers a dispatch. -/
theorem C6_escalation_pipeline (cfg : AlertConfig) (now : Nat) (st : AppState)
    (errorMsg context ip : GoStr)
    (hb : cfg.telegramBotToken ≠ []) (hc : cfg.telegramChatID ≠ [])
    (hnd : (st.errorCounts.map Prod.fst).Nodup) :
    mlookup (logErrorWithAlert cfg now st errorMsg context ip).state.errorCounts
        (normalizeIP ip)
      = some ((mlookup st.errorCounts (normalizeIP ip)).getD 0 + 1)
  ∧ ((mlookup st.errorCounts (normalizeIP ip)).getD 0 + 1 ≥ errorThreshold →
      (logErrorWithAlert cfg now st errorMsg context ip).alerts
          = [⟨context, normalizeIP ip,
              (mlookup st.errorCounts (normalizeIP ip)).getD 0 + 1, now⟩]
      ∧ mlookup (logErrorWithAlert cfg now st errorMsg context ip).state.blockedIPs
            (normalizeIP ip) = some now
      ∧ (logErrorWithAlert cfg now st errorMsg context ip).events
          = [⟨.suspiciousIPBlocked, normalizeIP ip, highErrorRate⟩])
  ∧ ((mlookup st.errorCounts (normalizeIP ip)).getD 0 + 1 < errorThreshold →
      (logErrorWithAlert cfg now st errorMsg context ip).alerts = []
      ∧ (logErrorWithAlert cfg now st errorMsg context ip).events = []
      ∧ (logErrorWithAlert cfg now st errorMsg context ip).state.blockedIPs
          = st.blockedIPs)
  ∧ (∀ k, mlookup (monitorSweep st).errorCounts k
      = Option.filter (fun v => ! decide (v < errorThreshold))
          (mlookup st.errorCounts k))
  ∧ (∀ c, mlookup st.errorCounts (normalizeIP ip) = some c →
      c ≥ errorThreshold →
      (logErrorWithAlert cfg now st errorMsg context ip).alerts ≠ []) := by
  rw [logErrorWithAlert_configured cfg now st errorMsg context ip hb hc]
  by_cases ht : (mlookup st.errorCounts (normalizeIP ip)).getD 0 + 1 ≥ errorThreshold
  · rw [if_pos ht]
    refine ⟨mlookup_minsert_self _ _ _,
      fun _ => ⟨rfl, mlookup_minsert_self _ _ _, rfl⟩,
      fun hlt => absurd ht (Nat.not_le.mpr hlt),
      fun k => monitorSweep_lookup st k hnd,
      fun c hcv hcge => by simp⟩
  · rw [if_neg ht]
    refine ⟨mlookup_minsert_self _ _ _, fun hge => absurd hge ht,
      fun _ => ⟨rfl, rfl, rfl⟩,
      fun k => monitorSweep_lookup st k hnd,
      fun c hcv hcge => ?_⟩
    exfalso
    apply ht
    rw [hcv]
    simp only [Option.getD_some]
    omega

/-- C6 witness: the fifth fault from `ipB` dispatches one alert and records
the new count. -/
theorem C6_escalation_pipeline_witness :
    mlookup (logErrorWithAlert cfgOn 7 c2State msgStr ctxStr ipB).state.errorCounts
        (normalizeIP ipB)
      = some ((mlookup c2State.errorCounts (normalizeIP ipB)).getD 0 + 1)
  ∧ (logErrorWithAlert cfgOn 7 c2State msgStr ctxStr ipB).alerts
      = [⟨ctxStr, normalizeIP ipB,
          (mlookup c2State.errorCounts (normalizeIP ipB)).getD 0 + 1, 7⟩] :=
  ⟨(C6_escalation_pipeline cfgOn 7 c2State msgStr ctxStr ipB (by decide)
      (by decide) (by decide)).1,
   ((C6_escalation_pipeline cfgOn 7 c2State msgStr ctxStr ipB (by decide)
      (by decide) (by decide)).2.1 (by decide)).1⟩

/-- C7: identity normalization is idempotent on every input string, and the
IPv6 loopback forms and the IPv4 loopback all map to the IPv4 loopback. -/
theorem C7_normalization_idempotent :
    (∀ s : GoStr, normalizeIP (normalizeIP s) = normalizeIP s)
  ∧ normalizeIP loop6 = loop4
  ∧ normalizeIP loop6b = loop4
  ∧ normalizeIP loop4 = loop4 :=
  ⟨normalizeIP_idem, by decide, by decide, by decide⟩

/-- C8 counterexample: the identity resolver can return the empty string —
for the forwarding header consisting of a bare comma, and for a peer address
whose last colon is its first character. -/
theorem C8_resolver_counterexample :
    commaStr ≠ [] ∧ getIP commaStr remoteStr = [] ∧ getIP [] colonPort = [] := by
  decide

/-- C8 amended: the resolver's output is non-empty provided that, when the
forwarding header is present, its first comma-token contains a non-whitespace
character, and, when it is absent, the peer address is non-empty and does not
start with a colon; for the degenerate inputs excluded by these provisos the
output is the empty string. -/
theorem C8_resolver_nonempty (f r : GoStr) :
    (f ≠ [] →
      (∃ c ∈ f.takeWhile (fun c => decide (c ≠ ',')), isGoSpace c = false) →
      getIP f r ≠ [])
  ∧ (f = [] → r ≠ [] → r.head? ≠ some ':' → getIP f r ≠ []) := by
  constructor
  · intro hf hex
    unfold getIP
    rw [if_pos hf, goSplit_headD]
    exact goTrimSpace_ne_nil _ hex
  · intro hf hr hh
    subst hf
    unfold getIP
    rw [if_neg (by simp)]
    by_cases hcol : ':' ∈ r
    · rw [if_pos hcol]
      intro he
      rw [List.reverse_eq_nil_iff] at he
      exact strip_colon_ne_nil r.reverse
        (by rwa [List.getLast?_reverse]) (List.mem_reverse.mpr hcol) he
    · rw [if_neg hcol]
      exact hr

/-- C8 witness: both resolver paths evaluated at well-formed inputs. -/
theorem C8_resolver_nonempty_witness :
    getIP fwdStr remoteStr ≠ [] ∧ getIP [] remoteStr ≠ [] :=
  ⟨(C8_resolver_nonempty fwdStr remoteStr).1 (by decide)
      ⟨'1', by decide, by decide⟩,
   (C8_resolver_nonempty [] remoteStr).2 rfl (by decide) (by decide)⟩

/-- C9: every 403 rejection issued by the middleware is caused solely by a
suspicious-path substring match — at the suspicion check the identity's
counter is at most `requestLimit`, so the count rule (count above twice the
limit) can never fire there; moreover the resulting state's counter entry for
the identity stays at most `requestLimit`. -/
theorem C9_suspicion_path_only (now : Nat) (st : AppState) (ip path : GoStr)
    (h : (securityStep now st ip path).decision = .reject 403) :
    suspiciousPaths.any (fun sp => goContains path sp) = true
  ∧ (∀ c, mlookup (securityStep now st ip path).state.requestCounts ip = some c →
      c ≤ requestLimit) := by
  by_cases h1 : isTrusted ip = true
  · simp [securityStep, h1] at h
  · by_cases h2 : isBlocked now st ip = true
    · simp [securityStep, h1, h2] at h
    · by_cases h3 : (incrementRequestCount now st ip).2 > requestLimit
      · simp [securityStep, h1, h2, h3] at h
      · by_cases h4 : isSuspicious (incrementRequestCount now st ip).1 ip path = true
        · have hcountle : (mlookup st.requestCounts ip).getD 0 + 1 ≤ requestLimit := by
            rw [← inc_count now st ip]
            exact Nat.not_lt.mp h3
          have hRL : requestLimit = 100 := rfl
          have h4' : ((mlookup st.requestCounts ip).getD 0 + 1 > requestLimit * 2)
              ∨ suspiciousPaths.any (fun sp => goContains path sp) = true := by
            have hx := h4
            unfold isSuspicious at hx
            rw [inc_requestCounts, mlookup_minsert_self] at hx
            simpa using hx
          rcases h4' with hcnt | hpath
          · omega
          · refine ⟨hpath, fun c hc => ?_⟩
            simp only [securityStep, if_neg h1, if_neg h2, if_neg h3,
              if_pos h4] at hc
            rw [blockIP_requestCounts, inc_requestCounts,
              mlookup_minsert_self] at hc
            injection hc with hc'
            omega
        · simp [securityStep, h1, h2, h3, h4] at h

/-- C9 witness: a first request to a suspicious path is rejected with 403 and
its cause is the path match. -/
theorem C9_suspicion_path_only_witness :
    suspiciousPaths.any (fun sp => goContains pathAdmin sp) = true :=
  (C9_suspicion_path_only 0 emptyState ipA pathAdmin (by decide)).1

/-- C10: a request rejected because its identity is blocked leaves the whole
state — in particular the counter and last-seen stores — unchanged; the
reaper deletes the counter and last-seen entries of an identity whose
last-seen time is older than the inactivity window; and an identity without a
counter entry gets count 1 on its next counted request. -/
theorem C10_blocked_request_frame (now now2 : Nat) (st : AppState)
    (ip path : GoStr) :
    (isTrusted ip = false → isBlocked now st ip = true →
      (securityStep now st ip path).state = st)
  ∧ (∀ c t, mlookup st.requestCounts ip = some c →
      mlookup st.lastRequestTime ip = some t →
      now2 - t > inactivityWindow →
      mlookup (cleanSweep now2 st).requestCounts ip = none ∧
      mlookup (cleanSweep now2 st).lastRequestTime ip = none)
  ∧ (mlookup st.requestCounts ip = none →
      (incrementRequestCount now st ip).2 = 1) := by
  refine ⟨fun h1 h2 => ?_, fun c t hc ht hold => ?_, fun hnone => ?_⟩
  · simp [securityStep, h1, h2]
  · have hstale : staleEntry now2 st ip = true := by
      simp [staleEntry, hc, ht, hold]
    constructor
    · have h := mlookup_filter_key st.requestCounts
        (fun i => ! staleEntry now2 st i) ip
      simpa [cleanSweep, hstale] using h
    · have h := mlookup_filter_key st.lastRequestTime
        (fun i => ! staleEntry now2 st i) ip
      simpa [cleanSweep, hstale] using h
  · rw [inc_count, hnone]
    rfl

/-- C10 witness: a blocked identity whose stale counter entry is evicted
while the block is still active, its count restarting at 1 afterwards. -/
theorem C10_blocked_request_frame_witness :
    (securityStep 700 c10State ipA pathX).state = c10State ∧
    isBlocked 700 c10State ipA = true ∧
    mlookup (cleanSweep 700 c10State).requestCounts ipA = none ∧
    (incrementRequestCount 4000 (cleanSweep 700 c10State) ipA).2 = 1 :=
  ⟨(C10_blocked_request_frame 700 700 c10State ipA pathX).1 (by decide)
     (by decide),
   by decide,
   ((C10_blocked_request_frame 700 700 c10State ipA pathX).2.1 3 0 (by decide)
     (by decide) (by decide)).1,
   (C10_blocked_request_frame 4000 700 (cleanSweep 700 c10State) ipA
     pathX).2.2 (by decide)⟩

end GoApp
